import Mathlib

/-!
Shallow embedding of the `rest` package of this repository: the request
execution engine (`DoRequest` / `doRequest` and its helpers in the main
engine file) and the fork-join concurrent executor (`Concurrent`,
`FutureResponse`).

Conventions of the embedding:
* Machine integers are `Nat`/`Int`; instants and durations are integral
  seconds (`Int`), matching the second-granularity arithmetic the engine
  performs on `Cache-Control`/`Expires` values.
* Go standard-library collaborators that the engine merely calls
  (`json.Marshal`, `xml.Marshal`, `time.Parse`, `gzip`, the transport's
  `Do`) are abstracted as function-valued fields of an `Env` record; the
  repository's own control flow is translated concretely.
* Mutation of shared objects is explicit state passing: the resource
  cache is a value threaded through, the `RequestBuilder` (which the
  engine mutates) is returned updated, and observable effects (network
  calls, metric emissions, sleeps, drains, circuit-breaker completion
  callbacks, cache reads and writes) are collected in an event trace.
* `mockUpEnv` is `false` in this embedding: the mock-server redirection
  is out of scope and `false` is the production default.
-/

namespace Rest

abbrev Bytes := List Nat

abbrev Err := String

/-- The parts of a Go `http.Response` that the engine reads: status code,
headers and the raw body bytes that `ioutil.ReadAll` yields. -/
structure HttpResp where
  statusCode : Nat
  headers : List (String × String)
  body : Bytes
deriving Repr, DecidableEq

/-- `http.Header.Get`: the value for a key, or `""` when absent. -/
def hdrsGet (hs : List (String × String)) (k : String) : String :=
  match hs.find? (fun p => p.1 == k) with
  | some p => p.2
  | none => ""

/-- The `Response` struct of the engine: embedded `*http.Response`,
decompressed byte body, cache metadata and the error field. -/
structure Response where
  err : Option Err := none
  resp : Option HttpResp := none
  byteBody : Bytes := []
  ttl : Option Int := none
  lastModified : Option Int := none
  etag : String := ""
  revalidate : Bool := false
  cacheHit : Bool := false
deriving Repr, DecidableEq

/-- `resp.Header.Get k` through the embedded `http.Response`. -/
def Response.headerGet (r : Response) (k : String) : String :=
  match r.resp with
  | some h => hdrsGet h.headers k
  | none => ""

/-- `result.StatusCode` through the embedded `http.Response`
(0, the Go zero value, when no response is embedded). -/
def Response.statusCodeD (r : Response) : Nat :=
  match r.resp with
  | some h => h.statusCode
  | none => 0

/-- The verbs the engine treats as reads: `readVerbs` array. -/
def readVerbs : List String := ["GET", "HEAD", "OPTIONS"]

/-- The verbs the engine treats as content-bearing: `contentVerbs` array. -/
def contentVerbs : List String := ["POST", "PUT", "PATCH"]

/-- `matchVerbs`: linear scan of the verb array for an exact match. -/
def matchVerbs (s : String) (l : List String) : Bool :=
  l.any (fun v => v == s)

/-- The capture of the regular expression `(?:max-age|s-maxage)=(\d+)`
applied by `FindStringSubmatch`: scan left to right; at the first position
where `max-age=` or `s-maxage=` is followed by at least one digit, capture
the maximal digit run. -/
def maxAgeScan : List Char → Option (List Char)
  | [] => none
  | c :: cs =>
    if ("max-age=".toList).isPrefixOf (c :: cs) then
      let ds := ((c :: cs).drop 8).takeWhile Char.isDigit
      if ds.isEmpty then maxAgeScan cs else some ds
    else if ("s-maxage=".toList).isPrefixOf (c :: cs) then
      let ds := ((c :: cs).drop 9).takeWhile Char.isDigit
      if ds.isEmpty then maxAgeScan cs else some ds
    else maxAgeScan cs

/-- Decimal value of a digit run. -/
def digitsVal (ds : List Char) : Nat :=
  ds.foldl (fun a c => a * 10 + (c.toNat - 48)) 0

/-- `strconv.Atoi` on a (nonempty) digit run: its decimal value, or an
error (`none`) when it overflows a 64-bit int. -/
def atoi (ds : List Char) : Option Int :=
  if digitsVal ds ≤ 9223372036854775807 then some (Int.ofNat (digitsVal ds)) else none

/-- Outcome of one transport attempt (`rb.getClient().Do`): a transport
error or an `http.Response`. -/
inductive NetRes where
  | err (e : Err)
  | ok (h : HttpResp)
deriving Repr, DecidableEq

/-- The environment of one engine invocation: the collaborators the
engine calls out to, abstracted as functions, plus the current time. -/
structure Env where
  now : Int := 0
  /-- `time.Parse httpDateFormat`: seconds-since-epoch of a date string. -/
  parseDate : String → Option Int := fun _ => none
  /-- `rb.getClient().Do(request)` on loop iteration `i` (= current retry count). -/
  net : Nat → NetRes := fun _ => NetRes.err "no network"
  /-- `RetryStrategy.ShouldRetry` as a function of the retry count and the
  attempt outcome: (retry?, delay). -/
  shouldRetry : Nat → NetRes → Bool × Nat := fun _ _ => (false, 0)
  /-- Modelled from the spec: `retryLimiter.Action` — the bounded retry
  limiter's sources are not among the provided files; per the spec it is a
  bounded concurrency limiter that either admits a retry (running the
  retry closure) or rejects it with an error. Whether the retry issued at
  a given retry count is admitted. -/
  limiterAllow : Nat → Bool := fun _ => true
  /-- `circuitBreaker.Allow()` error: `none` admits the call, `some e`
  denies it. The breaker implementation is an external collaborator; the
  engine only consumes this decision. -/
  breakerAllow : Option Err := none
  /-- `getCallerFile()`: the stack-inspection pool-name heuristic,
  abstracted as an environment-supplied string. -/
  callerFile : String := "pool_caller"
  /-- `json.Marshal` on the request body. -/
  jsonMarshal : String → Except Err Bytes := fun _ => Except.ok []
  /-- `xml.Marshal` on the request body. -/
  xmlMarshal : String → Except Err Bytes := fun _ => Except.ok []
  /-- `gzip.NewReader` + `ioutil.ReadAll`: decompression of a gzip body. -/
  gunzip : Bytes → Except Err Bytes := fun _ => Except.ok []
  /-- `http.NewRequest` failure (`none` = construction succeeds). -/
  newRequestErr : Option Err := none

/-- `setTTL`: TTL from `Cache-Control`'s `max-age`/`s-maxage` (the
function returns early whenever the regular expression matched, whatever
the parsed value), else from `Expires` when it parses to a future
instant. -/
def setTTL (env : Env) (resp : Response) : Response × Bool :=
  match maxAgeScan (resp.headerGet "Cache-Control").toList with
  | some ds =>
    match atoi ds with
    | none => (resp, false)
    | some ttl =>
      if 0 < ttl then ({ resp with ttl := some (env.now + ttl) }, true)
      else (resp, false)
  | none =>
    match env.parseDate (resp.headerGet "Expires") with
    | none => (resp, false)
    | some expires =>
      if env.now < expires then ({ resp with ttl := some expires }, true)
      else (resp, false)

/-- `setLastModified`: parse the `Last-Modified` header. -/
def setLastModified (env : Env) (resp : Response) : Response × Bool :=
  match env.parseDate (resp.headerGet "Last-Modified") with
  | none => (resp, false)
  | some t => ({ resp with lastModified := some t }, true)

/-- `setETag`: copy the `ETag` header; found iff nonempty. -/
def setETag (resp : Response) : Response × Bool :=
  let e := resp.headerGet "ETag"
  ({ resp with etag := e }, e != "")

/-- Lines 332–334 of the engine: the three extractions in sequence,
returning the updated response and the three found-flags. -/
def extractCacheMeta (env : Env) (r : Response) : Response × Bool × Bool × Bool :=
  let p1 := setTTL env r
  let p2 := setLastModified env p1.1
  let p3 := setETag p2.1
  (p3.1, p1.2, p2.2, p3.2)

/-- The `ContentType` enumeration: JSON, XML, BYTES. -/
inductive ContentType where
  | json
  | xml
  | bytes
deriving Repr, DecidableEq

/-- A request body (an untyped `interface` value in the source): nil, a
byte slice, a JSON- or XML-encodable value, or some other value (whose
dynamic type is not a byte slice). -/
inductive ReqBody where
  | empty
  | byteSlice (b : Bytes)
  | jsonValue (s : String)
  | xmlValue (s : String)
  | other (desc : String)
deriving Repr, DecidableEq

/-- The `%T(%v)` rendering of a body in the BYTES error message. -/
def describeBody : ReqBody → String
  | .empty => "<nil>"
  | .byteSlice _ => "[]byte"
  | .jsonValue s => "json(" ++ s ++ ")"
  | .xmlValue s => "xml(" ++ s ++ ")"
  | .other d => d

/-- The configuration fields of a `RequestBuilder` that the engine
reads or writes. -/
structure RequestBuilder where
  baseURL : String := ""
  contentType : ContentType := ContentType.json
  headers : List (String × List String) := []
  timeout : Int := 0
  connectTimeout : Int := 0
  disableTimeout : Bool := false
  enableCache : Bool := false
  followRedirect : Bool := false
  uncompressResponse : Bool := false
  poolName : String := ""
  userAgent : String := ""
  basicAuth : Option (String × String) := none
  /-- Whether `rb.RetryStrategy != nil`. -/
  hasRetryStrategy : Bool := false
  /-- Whether `rb.circuitBreaker != nil`. -/
  hasCircuitBreaker : Bool := false
  /-- `rb.MetricsConfig.DisableApiCallMetrics`. -/
  disableApiCallMetrics : Bool := false
  /-- `rb.MetricsConfig.TargetId`. -/
  targetId : String := ""
deriving Repr, DecidableEq

/-- Go map `delete` on the headers map. -/
def deleteHeader (hs : List (String × List String)) (k : String) :
    List (String × List String) :=
  hs.filter (fun p => p.1 != k)

/-- `marshalReqBody`: nil body marshals to nil bytes; otherwise dispatch
on the configured content type; under BYTES a non-byte-slice body is a
local error. -/
def marshalReqBody (rb : RequestBuilder) (env : Env) (body : ReqBody) :
    Except Err Bytes :=
  match body with
  | .empty => Except.ok []
  | b =>
    match rb.contentType with
    | .json =>
      match b with
      | .jsonValue s => env.jsonMarshal s
      | .byteSlice bs => Except.ok bs
      | b2 => env.jsonMarshal (describeBody b2)
    | .xml =>
      match b with
      | .xmlValue s => env.xmlMarshal s
      | b2 => env.xmlMarshal (describeBody b2)
    | .bytes =>
      match b with
      | .byteSlice bs => Except.ok bs
      | b2 => Except.error ("bytes: body is " ++ describeBody b2 ++ " not a byte slice")

/-- The process-wide resource cache: canonical URL → cached response. -/
abbrev Cache := List (String × Response)

/-- Whether a cached entry is still fresh at `now`: unexpired TTL and not
flagged for revalidation. -/
def cacheFreshAt (now : Int) (r : Response) : Bool :=
  (match r.ttl with
   | some t => decide (now < t)
   | none => false) && !r.revalidate

/-- Modelled from the spec: `resourceCache.get` — the Resource Cache
implementation is not among the provided sources. Per the spec, the cache
is a map from URL to the last cacheable response and a read of an expired
entry behaves as a cache miss; entries without a TTL (validators only)
are returned carrying their revalidation flag. -/
def cacheGet (now : Int) (url : String) (c : Cache) : Option Response :=
  match c.find? (fun p => p.1 == url) with
  | none => none
  | some p =>
    match p.2.ttl with
    | some t => if now < t then some p.2 else none
    | none => some p.2

/-- Modelled from the spec: `resourceCache.setNX` — the Resource Cache
implementation is not among the provided sources. Per the spec, entries
are inserted only if no fresher entry exists (insert-if-absent) and a
stale prior entry is replaced outright by a fresh response. -/
def cacheSetNX (now : Int) (url : String) (r : Response) (c : Cache) : Cache :=
  match c.find? (fun p => p.1 == url) with
  | some p =>
    if cacheFreshAt now p.2 then c
    else (url, r) :: c.filter (fun q => q.1 != url)
  | none => (url, r) :: c

/-- `cacheResp.cacheHit.Store(true)`: the cached entry is shared by
pointer, so marking the returned response as a cache hit also marks the
copy inside the cache. -/
def cacheMarkHit (url : String) (c : Cache) : Cache :=
  c.map (fun p => if p.1 == url then (p.1, { p.2 with cacheHit := true }) else p)

/-- Observable effects of one engine invocation. -/
inductive Ev where
  /-- `rb.getClient().Do` on loop iteration `i`. -/
  | netCall (i : Nat)
  /-- `godog.RecordApiCallMetric` with the outcome label and retry flag. -/
  | apiMetric (outcome : String) (isRetry : Bool)
  /-- the `go.api_call.retry_break` metric. -/
  | retryBreak
  /-- `time.Sleep(retryResp.Delay())`. -/
  | sleepEv (d : Nat)
  /-- `drainBody(httpResp.Body)`. -/
  | drainEv
  /-- the circuit breaker's completion callback `after(success)`. -/
  | breakerDone (success : Bool)
  /-- `resourceCache.get(reqURL)`. -/
  | cacheGetEv (url : String)
  /-- `resourceCache.setNX(cacheURL, result)`. -/
  | cacheSetEv (url : String)
deriving Repr, DecidableEq

/-- Whether an event is a circuit-breaker completion callback. -/
def isBreakerDone : Ev → Bool
  | .breakerDone _ => true
  | _ => false

/-- Outcome of the retry loop. -/
inductive LoopOut where
  /-- `http.NewRequest` failed: `doRequest` returns the error at once. -/
  | earlyErr (e : Err)
  /-- the loop ended with this transport outcome. -/
  | finished (netRes : NetRes)
  /-- fuel ran out (the source loop would still be running). -/
  | fuelOut
deriving Repr, DecidableEq

/-- Lines 203–206 of the engine: when the pool name is empty, assign one
derived from the call site (`getCallerFile`). -/
def poolNameStep (env : Env) (rb : RequestBuilder) : RequestBuilder :=
  if rb.poolName == "" then { rb with poolName := env.callerFile } else rb

/-- The events of one loop iteration up to the retry decision: the
network call and (unless disabled) the call-outcome metric, labelled with
the status code or `"error"` and whether this attempt is a retry. -/
def attemptEvs (env : Env) (rb : RequestBuilder) (retries : Nat) : List Ev :=
  Ev.netCall retries ::
    (if rb.disableApiCallMetrics then [] else
      [Ev.apiMetric
        (match env.net retries with
         | NetRes.err _ => "error"
         | NetRes.ok h => toString h.statusCode)
        (decide (0 < retries))])

/-- The effects of `retryFunc`: drain the previous body when the attempt
produced one, then sleep for the indicated delay. -/
def retryEvs (env : Env) (retries : Nat) : List Ev :=
  (match env.net retries with
   | NetRes.ok _ => [Ev.drainEv]
   | NetRes.err _ => []) ++ [Ev.sleepEv (env.shouldRetry retries (env.net retries)).2]

/-- The `for !end` retry loop of `doRequest` (lines 186–275): build the
request (with the lazy pool-name assignment), execute it, record the
call-outcome metric, then either stop or — when the strategy asks for a
retry — drain, sleep and go again, directly when a circuit breaker is
configured and through the bounded retry limiter when not; a limiter
rejection ends the loop with the current result after recording the
retry-break metric. -/
def retryLoop (env : Env) : Nat → Nat → RequestBuilder →
    LoopOut × RequestBuilder × List Ev
  | 0, _, rb => (LoopOut.fuelOut, rb, [])
  | fuel + 1, retries, rb =>
    match env.newRequestErr with
    | some e => (LoopOut.earlyErr e, rb, [])
    | none =>
      let rb1 := poolNameStep env rb
      if rb1.hasRetryStrategy then
        if (env.shouldRetry retries (env.net retries)).1 then
          if rb1.hasCircuitBreaker then
            let rest := retryLoop env fuel (retries + 1) rb1
            (rest.1, rest.2.1, attemptEvs env rb1 retries ++ retryEvs env retries ++ rest.2.2)
          else if env.limiterAllow retries then
            let rest := retryLoop env fuel (retries + 1) rb1
            (rest.1, rest.2.1, attemptEvs env rb1 retries ++ retryEvs env retries ++ rest.2.2)
          else
            (LoopOut.finished (env.net retries), rb1,
              attemptEvs env rb1 retries ++
                (if rb1.disableApiCallMetrics then [] else [Ev.retryBreak]))
        else (LoopOut.finished (env.net retries), rb1, attemptEvs env rb1 retries)
      else (LoopOut.finished (env.net retries), rb1, attemptEvs env rb1 retries)

/-- Lines 296–330: attach the `http.Response` and fill `byteBody`,
decompressing when configured and the response indicates gzip (a
decompression error is stored on the error field and processing
continues). -/
def readBody (rb : RequestBuilder) (env : Env) (h : HttpResp) : Response :=
  let base : Response := { resp := some h }
  if !rb.uncompressResponse then { base with byteBody := h.body }
  else
    let enc0 := hdrsGet h.headers "Content-Encoding"
    let enc := if enc0 != "" then enc0 else hdrsGet h.headers "Content-Type"
    if enc == "gzip" || enc == "application/x-gzip" then
      if h.body.isEmpty then base
      else
        match env.gunzip h.body with
        | Except.error e => { base with err := some e }
        | Except.ok d => { base with byteBody := d }
    else { base with byteBody := h.body }

/-- Lines 336–338: flag the response for future revalidation when no TTL
was found but a validator (Last-Modified or ETag) was. -/
def revalidateMark (em : Response × Bool × Bool × Bool) : Response :=
  if !em.2.1 && (em.2.2.1 || em.2.2.2) then { em.1 with revalidate := true } else em.1

/-- Lines 281–345 of `doRequest`, after the loop produced a successful
`http.Response`: the 304 short-circuit to the cached response, body
reading/decompression, cache-metadata extraction, the revalidation flag,
and the conditional cache insert. Returns the `*Response` (possibly the
Go nil pointer), the updated cache, and the trailing events. -/
def finishResponse (rb : RequestBuilder) (env : Env) (verb cacheURL : String)
    (cacheResp : Option Response) (h : HttpResp) (cache : Cache) :
    Option Response × Cache × List Ev :=
  if rb.enableCache && h.statusCode == 304 then
    (cacheResp, cache, [])
  else
    if rb.enableCache && matchVerbs verb readVerbs &&
        ((extractCacheMeta env (readBody rb env h)).2.1 ||
         (extractCacheMeta env (readBody rb env h)).2.2.1 ||
         (extractCacheMeta env (readBody rb env h)).2.2.2) then
      (some (revalidateMark (extractCacheMeta env (readBody rb env h))),
       cacheSetNX env.now cacheURL
         (revalidateMark (extractCacheMeta env (readBody rb env h))) cache,
       [Ev.cacheSetEv cacheURL])
    else
      (some (revalidateMark (extractCacheMeta env (readBody rb env h))), cache, [])

/-- Result of `doRequest`: the `*Response` (`none` = divergence of the
source loop under this fuel; `some none` = the Go nil pointer;
`some (some r)` = a real response), the request builder after the call,
the cache after the call, and the event trace. -/
structure DoOut where
  out : Option (Option Response)
  rb : RequestBuilder
  cache : Cache
  evs : List Ev
deriving Repr, DecidableEq

/-- Lines 161–166 of `doRequest`: when caching is disabled, delete the
conditional headers from the builder's (shared) headers map. -/
def stripCondHeaders (rb : RequestBuilder) : RequestBuilder :=
  if !rb.enableCache then
    { rb with
      headers := deleteHeader (deleteHeader rb.headers "If-None-Match") "If-Modified-Since" }
  else rb

/-- `doRequest` from the conditional-header cleanup onward (lines
161–345): delete the conditional headers when the cache is disabled,
marshal the body (a failure is returned at once as an error response),
run the retry loop and post-process its outcome. -/
def doRequestNet (rb : RequestBuilder) (env : Env) (fuel : Nat)
    (verb reqURL : String) (cacheResp : Option Response) (reqBody : ReqBody)
    (cache : Cache) (evs0 : List Ev) : DoOut :=
  -- `checkMockup` with `mockUpEnv = false`: the request URL and the
  -- cache key coincide, so `reqURL` below also plays the `cacheURL` role.
  match marshalReqBody (stripCondHeaders rb) env reqBody with
  | Except.error e =>
    { out := some (some { err := some e }), rb := stripCondHeaders rb,
      cache := cache, evs := evs0 }
  | Except.ok _ =>
    match retryLoop env fuel 0 (stripCondHeaders rb) with
    | (LoopOut.fuelOut, rb1, evs1) =>
      { out := none, rb := rb1, cache := cache, evs := evs0 ++ evs1 }
    | (LoopOut.earlyErr e, rb1, evs1) =>
      { out := some (some { err := some e }), rb := rb1, cache := cache, evs := evs0 ++ evs1 }
    | (LoopOut.finished (NetRes.err e), rb1, evs1) =>
      { out := some (some { err := some e }), rb := rb1, cache := cache, evs := evs0 ++ evs1 }
    | (LoopOut.finished (NetRes.ok h), rb1, evs1) =>
      { out := some (finishResponse rb1 env verb reqURL cacheResp h cache).1,
        rb := rb1, cache := (finishResponse rb1 env verb reqURL cacheResp h cache).2.1,
        evs := evs0 ++ evs1 ++ (finishResponse rb1 env verb reqURL cacheResp h cache).2.2 }

/-- `doRequest` (lines 144–346): prefix the base URL, consult the cache
for read verbs when caching is enabled (returning a fresh hit at once and
carrying a stale hit into the network path for revalidation), then run
the network path. -/
def doRequest (rb : RequestBuilder) (env : Env) (fuel : Nat)
    (verb reqURL0 : String) (reqBody : ReqBody) (cache : Cache) : DoOut :=
  if rb.enableCache && matchVerbs verb readVerbs then
    match cacheGet env.now (rb.baseURL ++ reqURL0) cache with
    | some r =>
      if !({ r with cacheHit := true } : Response).revalidate then
        { out := some (some { r with cacheHit := true }), rb := rb,
          cache := cacheMarkHit (rb.baseURL ++ reqURL0) cache,
          evs := [Ev.cacheGetEv (rb.baseURL ++ reqURL0)] }
      else
        doRequestNet rb env fuel verb (rb.baseURL ++ reqURL0) (some { r with cacheHit := true })
          reqBody (cacheMarkHit (rb.baseURL ++ reqURL0) cache)
          [Ev.cacheGetEv (rb.baseURL ++ reqURL0)]
    | none =>
      doRequestNet rb env fuel verb (rb.baseURL ++ reqURL0) none reqBody cache
        [Ev.cacheGetEv (rb.baseURL ++ reqURL0)]
  else
    doRequestNet rb env fuel verb (rb.baseURL ++ reqURL0) none reqBody cache []

/-- The success predicate the circuit-breaker completion uses
(`result.Err == nil && result.StatusCode/100 != 5`): `none` marks the nil
dereference the source would hit when the error field is nil but no
`http.Response` is embedded. -/
def cbSuccess (r : Response) : Option Bool :=
  match r.err with
  | some _ => some false
  | none => r.resp.map (fun h => !(h.statusCode / 100 == 5))

/-- Result of `DoRequest`: as `DoOut`, plus whether the invocation hit a
nil-pointer dereference computing the breaker's success flag. -/
structure DoReqOut where
  out : Option (Option Response)
  panicked : Bool
  rb : RequestBuilder
  cache : Cache
  evs : List Ev
deriving Repr, DecidableEq

/-- `DoRequest` (lines 113–142): gate through the circuit breaker when
one is configured — a denial returns a synthetic internal-error response
at once — run `doRequest`, and invoke the breaker's completion callback
with the computed success flag. -/
def DoRequest (rb : RequestBuilder) (env : Env) (fuel : Nat)
    (verb reqURL0 : String) (reqBody : ReqBody) (cache : Cache) : DoReqOut :=
  if rb.hasCircuitBreaker then
    match env.breakerAllow with
    | some e =>
      { out := some (some { err := some e, resp := some { statusCode := 500, headers := [], body := [] } }),
        panicked := false, rb := rb, cache := cache, evs := [] }
    | none =>
      match (doRequest rb env fuel verb reqURL0 reqBody cache).out with
      | none =>
        { out := none, panicked := false,
          rb := (doRequest rb env fuel verb reqURL0 reqBody cache).rb,
          cache := (doRequest rb env fuel verb reqURL0 reqBody cache).cache,
          evs := (doRequest rb env fuel verb reqURL0 reqBody cache).evs }
      | some none =>
        { out := some none, panicked := true,
          rb := (doRequest rb env fuel verb reqURL0 reqBody cache).rb,
          cache := (doRequest rb env fuel verb reqURL0 reqBody cache).cache,
          evs := (doRequest rb env fuel verb reqURL0 reqBody cache).evs }
      | some (some r) =>
        match cbSuccess r with
        | none =>
          { out := some (some r), panicked := true,
            rb := (doRequest rb env fuel verb reqURL0 reqBody cache).rb,
            cache := (doRequest rb env fuel verb reqURL0 reqBody cache).cache,
            evs := (doRequest rb env fuel verb reqURL0 reqBody cache).evs }
        | some s =>
          { out := some (some r), panicked := false,
            rb := (doRequest rb env fuel verb reqURL0 reqBody cache).rb,
            cache := (doRequest rb env fuel verb reqURL0 reqBody cache).cache,
            evs := (doRequest rb env fuel verb reqURL0 reqBody cache).evs ++ [Ev.breakerDone s] }
  else
    { out := (doRequest rb env fuel verb reqURL0 reqBody cache).out, panicked := false,
      rb := (doRequest rb env fuel verb reqURL0 reqBody cache).rb,
      cache := (doRequest rb env fuel verb reqURL0 reqBody cache).cache,
      evs := (doRequest rb env fuel verb reqURL0 reqBody cache).evs }

/-- One queued concurrent request: what the closure appended by a
`Concurrent` verb method captures. -/
structure PendingReq where
  verb : String
  url : String
  body : ReqBody
deriving Repr, DecidableEq

/-- The `Concurrent` batch collector. -/
structure Concurrent where
  futures : List PendingReq := []
  reqBuilder : RequestBuilder := {}

/-- A `FutureResponse` cell: `none` = not yet stored; `some v` = the
worker stored the `*Response` `v` (itself possibly the Go nil). -/
abbrev FutureState := Option (Option Response)

/-- `FutureResponse.Response()`: nil until the store happened, then the
stored pointer. -/
def FutureState.response (f : FutureState) : Option Response :=
  match f with
  | none => none
  | some v => v

/-- The zero value of a `FutureResponse`: nothing stored. -/
def newFutureState : FutureState := none

/-- `Concurrent.DoRequest`: append the closure to the batch and hand back
the (empty) future; nothing executes at call time. -/
def Concurrent.doRequestC (c : Concurrent) (verb url : String) (body : ReqBody) :
    Concurrent × PendingReq :=
  ({ c with futures := c.futures ++ [⟨verb, url, body⟩] }, ⟨verb, url, body⟩)

/-- `Concurrent.Get`. -/
def Concurrent.get (c : Concurrent) (url : String) : Concurrent × PendingReq :=
  c.doRequestC "GET" url ReqBody.empty

/-- `Concurrent.Post`. -/
def Concurrent.post (c : Concurrent) (url : String) (body : ReqBody) :
    Concurrent × PendingReq :=
  c.doRequestC "POST" url body

/-- `Concurrent.Put`. -/
def Concurrent.put (c : Concurrent) (url : String) (body : ReqBody) :
    Concurrent × PendingReq :=
  c.doRequestC "PUT" url body

/-- `Concurrent.Patch`. -/
def Concurrent.patch (c : Concurrent) (url : String) (body : ReqBody) :
    Concurrent × PendingReq :=
  c.doRequestC "PATCH" url body

/-- `Concurrent.Delete`. -/
def Concurrent.delete (c : Concurrent) (url : String) : Concurrent × PendingReq :=
  c.doRequestC "DELETE" url ReqBody.empty

/-- `Concurrent.Head`. -/
def Concurrent.head (c : Concurrent) (url : String) : Concurrent × PendingReq :=
  c.doRequestC "HEAD" url ReqBody.empty

/-- `Concurrent.Options`. -/
def Concurrent.optionsVerb (c : Concurrent) (url : String) : Concurrent × PendingReq :=
  c.doRequestC "OPTIONS" url ReqBody.empty

/-- Running one queued closure: execute the underlying
`RequestBuilder.DoRequest` and store its result into the future cell
(exactly once; `none` if the underlying call diverges, i.e. the store is
never reached). -/
def runPending (rb : RequestBuilder) (env : Env) (fuel : Nat) (cache : Cache)
    (p : PendingReq) : FutureState :=
  match (DoRequest rb env fuel p.verb p.url p.body cache).out with
  | none => none
  | some v => some v

/-! ## Derived definitions used by the verification -/

/-- A builder with its `poolName` blanked: two builders with the same
erasure differ at most in `poolName`. -/
def eraseP (rb : RequestBuilder) : RequestBuilder :=
  { rb with poolName := "" }

/-- A builder with `headers` and `poolName` blanked: two builders with
the same erasure agree on every other configuration field. -/
def eraseHP (rb : RequestBuilder) : RequestBuilder :=
  { rb with headers := [], poolName := "" }

/-- The builder state after a `DoRequest` invocation. -/
def rbAfter (rb : RequestBuilder) (env : Env) (fuel : Nat) (verb url0 : String)
    (body : ReqBody) (cache : Cache) : RequestBuilder :=
  (DoRequest rb env fuel verb url0 body cache).rb

/-! ## Concrete instances used to evaluate the engine -/

/-- Concrete configuration with an open circuit breaker. -/
def rbDenied : RequestBuilder := { hasCircuitBreaker := true }

/-- Environment in which `Allow()` denies the call. -/
def envDenied : Env := { breakerAllow := some "circuit breaker open" }

/-- Response carrying `Cache-Control: max-age=0` together with a valid
`Expires` header. -/
def respMaxAge0 : Response :=
  { resp := some { statusCode := 200,
                   headers := [("Cache-Control", "max-age=0"), ("Expires", "EXP")],
                   body := [] } }

/-- Environment at time 1000 that parses the date string `"EXP"` to
instant 1200. -/
def envExpires : Env :=
  { now := 1000, parseDate := fun s => if s == "EXP" then some 1200 else none }

/-- Response carrying `Cache-Control: public, max-age=100` together with
a valid `Expires` header. -/
def respMaxAge100 : Response :=
  { resp := some { statusCode := 200,
                   headers := [("Cache-Control", "public, max-age=100"), ("Expires", "EXP")],
                   body := [] } }

/-- Response carrying only a valid `Expires` header. -/
def respExpiresOnly : Response :=
  { resp := some { statusCode := 200, headers := [("Expires", "EXP")], body := [] } }

/-- Builder with caching enabled, everything else default. -/
def rbCache : RequestBuilder := { enableCache := true }

/-- A cacheable 200 response carrying `Cache-Control: max-age=100` and an
`ETag`. -/
def hRespCacheable : HttpResp :=
  { statusCode := 200,
    headers := [("Cache-Control", "max-age=100"), ("ETag", "abc")],
    body := [7] }

/-- The response produced from `hRespCacheable` after cache-metadata
extraction. -/
def rCacheableMeta : Response :=
  (extractCacheMeta envExpires (readBody rbCache envExpires hRespCacheable)).1

/-- A bare `304 Not Modified` response. -/
def resp304 : HttpResp := { statusCode := 304, headers := [], body := [] }

/-- A cached entry flagged for revalidation (ETag, no TTL). -/
def cachedEntry : Response :=
  { resp := some { statusCode := 200, headers := [], body := [] },
    byteBody := [1, 2, 3], etag := "abc", revalidate := true }

/-- A cache holding `cachedEntry` under URL `"u"`. -/
def cacheWithEntry : Cache := [("u", cachedEntry)]

/-- Environment whose network always answers `304 Not Modified`. -/
def env304 : Env := { now := 1000, net := fun _ => NetRes.ok resp304 }

/-- Caching-enabled builder with a circuit breaker. -/
def rbCacheCB : RequestBuilder := { enableCache := true, hasCircuitBreaker := true }

/-- Builder with a retry strategy and API-call metrics disabled. -/
def rbRetryNoMetrics : RequestBuilder :=
  { hasRetryStrategy := true, disableApiCallMetrics := true }

/-- Builder with a retry strategy (metrics enabled). -/
def rbRetry : RequestBuilder := { hasRetryStrategy := true }

/-- Environment whose network always fails, whose strategy always asks
for a retry, and whose retry limiter always rejects. -/
def envRetryReject : Env :=
  { net := fun _ => NetRes.err "boom",
    shouldRetry := fun _ _ => (true, 7),
    limiterAllow := fun _ => false }

/-- Builder whose (empty) headers map carries a conditional header and
whose pool name is empty. -/
def rbCondHeader : RequestBuilder := { headers := [("If-None-Match", ["x"])] }

/-- Builder with caching on, a nonempty pool name and a custom header. -/
def rbNamedPool : RequestBuilder :=
  { enableCache := true, poolName := "pp", headers := [("X-Custom", ["1"])] }

/-- A plain 200 response with a one-byte body. -/
def respOk200 : HttpResp := { statusCode := 200, headers := [], body := [5] }

/-- Environment whose network always answers 200. -/
def envOk200 : Env := { net := fun _ => NetRes.ok respOk200 }

/-- Breaker-guarded builder, everything else default. -/
def rbCB : RequestBuilder := { hasCircuitBreaker := true }

/-- Breaker-guarded builder configured for raw-bytes bodies. -/
def rbBytesCB : RequestBuilder :=
  { contentType := ContentType.bytes, hasCircuitBreaker := true }

/-- A request body that is not a byte slice. -/
def bodyNotBytes : ReqBody := ReqBody.other "int(3)"

/-- An empty concurrent batch over the breaker-denied builder. -/
def cDemo : Concurrent := { futures := [], reqBuilder := rbDenied }

/-- The response `doRequest` builds from a bare 200 answer with body
`[5]`. -/
def rOk200after : Response := { resp := some respOk200, byteBody := [5] }

/-- The synthetic response an open breaker produces under `envDenied`. -/
def denyResp : Response :=
  { err := some "circuit breaker open",
    resp := some { statusCode := 500, headers := [], body := [] } }

/-! ## Structural lemmas about the engine -/

/-- `poolNameStep` changes at most the `poolName` field. -/
theorem poolNameStep_update (env : Env) (rb : RequestBuilder) (q : String) :
    ({ poolNameStep env rb with poolName := q } : RequestBuilder) =
      { rb with poolName := q } := by
  unfold poolNameStep
  split <;> rfl

/-- `poolNameStep` leaves a nonempty `poolName` alone. -/
theorem poolNameStep_of_ne (env : Env) (rb : RequestBuilder)
    (h : ¬ rb.poolName = "") : poolNameStep env rb = rb := by
  unfold poolNameStep
  simp [h]

/-- `poolNameStep` preserves `hasRetryStrategy`. -/
theorem poolNameStep_hasRetryStrategy (env : Env) (rb : RequestBuilder) :
    (poolNameStep env rb).hasRetryStrategy = rb.hasRetryStrategy := by
  unfold poolNameStep
  split <;> rfl

/-- `poolNameStep` preserves `hasCircuitBreaker`. -/
theorem poolNameStep_hasCircuitBreaker (env : Env) (rb : RequestBuilder) :
    (poolNameStep env rb).hasCircuitBreaker = rb.hasCircuitBreaker := by
  unfold poolNameStep
  split <;> rfl

/-- `poolNameStep` preserves `disableApiCallMetrics`. -/
theorem poolNameStep_disableApiCallMetrics (env : Env) (rb : RequestBuilder) :
    (poolNameStep env rb).disableApiCallMetrics = rb.disableApiCallMetrics := by
  unfold poolNameStep
  split <;> rfl

/-- `poolNameStep` preserves `enableCache`. -/
theorem poolNameStep_enableCache (env : Env) (rb : RequestBuilder) :
    (poolNameStep env rb).enableCache = rb.enableCache := by
  unfold poolNameStep
  split <;> rfl

/-- `poolNameStep` changes at most the `poolName` field. -/
theorem eraseP_poolNameStep (env : Env) (rb : RequestBuilder) :
    eraseP (poolNameStep env rb) = eraseP rb := by
  unfold poolNameStep
  split <;> rfl

/-- The retry loop touches no `RequestBuilder` field other than
`poolName`. -/
theorem retryLoop_rb_shape (env : Env) (fuel : Nat) :
    ∀ (retries : Nat) (rb : RequestBuilder),
      eraseP (retryLoop env fuel retries rb).2.1 = eraseP rb := by
  induction fuel with
  | zero => intro retries rb; rfl
  | succ n ih =>
    intro retries rb
    cases hne : env.newRequestErr <;>
      by_cases hp : rb.poolName == "" <;>
      by_cases hrs : rb.hasRetryStrategy = true <;>
      by_cases hcb : rb.hasCircuitBreaker = true <;>
      by_cases hla : env.limiterAllow retries = true <;>
      by_cases hsr : (env.shouldRetry retries (env.net retries)).1 = true <;>
      simp_all [retryLoop, poolNameStep_hasRetryStrategy, poolNameStep_hasCircuitBreaker,
        poolNameStep_disableApiCallMetrics, eraseP_poolNameStep, ih]

/-- The retry loop leaves a nonempty `poolName` (and hence the whole
builder) unchanged. -/
theorem retryLoop_rb_of_ne (env : Env) (fuel : Nat) :
    ∀ (retries : Nat) (rb : RequestBuilder), ¬ rb.poolName = "" →
      (retryLoop env fuel retries rb).2.1 = rb := by
  induction fuel with
  | zero => intro retries rb _; rfl
  | succ n ih =>
    intro retries rb hp
    have hstep : poolNameStep env rb = rb := poolNameStep_of_ne env rb hp
    cases hne : env.newRequestErr <;>
      by_cases hrs : rb.hasRetryStrategy = true <;>
      by_cases hcb : rb.hasCircuitBreaker = true <;>
      by_cases hla : env.limiterAllow retries = true <;>
      by_cases hsr : (env.shouldRetry retries (env.net retries)).1 = true <;>
      simp_all [retryLoop, ih]

/-- The per-attempt events contain no breaker completion. -/
theorem breakerDone_not_attemptEvs (env : Env) (rb : RequestBuilder)
    (retries : Nat) (s : Bool) :
    Ev.breakerDone s ∉ attemptEvs env rb retries := by
  unfold attemptEvs
  split <;> simp

/-- The retry (drain + sleep) events contain no breaker completion. -/
theorem breakerDone_not_retryEvs (env : Env) (retries : Nat) (s : Bool) :
    Ev.breakerDone s ∉ retryEvs env retries := by
  unfold retryEvs
  cases env.net retries <;> simp

set_option maxHeartbeats 1000000 in
/-- The retry loop never emits a circuit-breaker completion event. -/
theorem retryLoop_no_breaker (env : Env) (fuel : Nat) :
    ∀ (retries : Nat) (rb : RequestBuilder) (s : Bool),
      Ev.breakerDone s ∉ (retryLoop env fuel retries rb).2.2 := by
  induction fuel with
  | zero => intro retries rb s; simp [retryLoop]
  | succ n ih =>
    intro retries rb s
    cases hne : env.newRequestErr <;>
      by_cases hrs : rb.hasRetryStrategy = true <;>
      by_cases hcb : rb.hasCircuitBreaker = true <;>
      by_cases hla : env.limiterAllow retries = true <;>
      by_cases hsr : (env.shouldRetry retries (env.net retries)).1 = true <;>
      simp_all [retryLoop, poolNameStep_hasRetryStrategy, poolNameStep_hasCircuitBreaker,
        breakerDone_not_attemptEvs, breakerDone_not_retryEvs, ih] <;>
      try (cases s <;> first
        | exact (ih _ _).1
        | exact (ih _ _).2)

/-- A trace without breaker completions has breaker-completion count 0. -/
theorem countP_eq_zero_of_no_breaker (l : List Ev)
    (h : ∀ s : Bool, Ev.breakerDone s ∉ l) :
    l.countP isBreakerDone = 0 := by
  rw [List.countP_eq_zero]
  intro a ha
  cases a <;> first
    | exact absurd ha (h _)
    | simp [isBreakerDone]

/-- When caching is enabled, no conditional header is deleted. -/
theorem stripCondHeaders_of_enabled (rb : RequestBuilder)
    (h : rb.enableCache = true) : stripCondHeaders rb = rb := by
  unfold stripCondHeaders
  simp [h]

/-- `stripCondHeaders` preserves `poolName`. -/
theorem stripCondHeaders_poolName (rb : RequestBuilder) :
    (stripCondHeaders rb).poolName = rb.poolName := by
  unfold stripCondHeaders
  split <;> rfl

/-- `stripCondHeaders` preserves `contentType`. -/
theorem stripCondHeaders_contentType (rb : RequestBuilder) :
    (stripCondHeaders rb).contentType = rb.contentType := by
  unfold stripCondHeaders
  split <;> rfl

/-- Builders with the same `eraseP` erasure have the same `eraseHP`
erasure. -/
theorem eraseHP_of_eraseP (a b : RequestBuilder) (h : eraseP a = eraseP b) :
    eraseHP a = eraseHP b :=
  congrArg (fun x => { x with headers := ([] : List (String × List String)) }) h

/-- `stripCondHeaders` changes at most the headers map. -/
theorem eraseHP_strip (rb : RequestBuilder) :
    eraseHP (stripCondHeaders rb) = eraseHP rb := by
  unfold stripCondHeaders
  split <;> rfl

/-- The network path touches no builder field beyond the conditional
header cleanup and `poolName`. -/
theorem doRequestNet_rb_eraseP (rb : RequestBuilder) (env : Env) (fuel : Nat)
    (verb reqURL : String) (cacheResp : Option Response) (body : ReqBody)
    (cache : Cache) (evs0 : List Ev) :
    eraseP (doRequestNet rb env fuel verb reqURL cacheResp body cache evs0).rb =
      eraseP (stripCondHeaders rb) := by
  unfold doRequestNet
  split
  · rfl
  · split <;>
      (rename_i rb1 evs1 heq
       have hs := congrArg (fun t => eraseP t.2.1) heq
       exact hs.symm.trans (retryLoop_rb_shape env fuel 0 _))

/-- The network path leaves a nonempty `poolName` unchanged. -/
theorem doRequestNet_rb_poolName (rb : RequestBuilder) (env : Env) (fuel : Nat)
    (verb reqURL : String) (cacheResp : Option Response) (body : ReqBody)
    (cache : Cache) (evs0 : List Ev) (hp : ¬ rb.poolName = "") :
    (doRequestNet rb env fuel verb reqURL cacheResp body cache evs0).rb.poolName =
      rb.poolName := by
  have hps : ¬ (stripCondHeaders rb).poolName = "" := by
    rw [stripCondHeaders_poolName]
    exact hp
  unfold doRequestNet
  split
  · exact stripCondHeaders_poolName rb
  · split <;>
      (rename_i rb1 evs1 heq
       have hs := congrArg (fun t => t.2.1) heq
       have h2 := retryLoop_rb_of_ne env fuel 0 (stripCondHeaders rb) hps
       have h3 : rb1 = stripCondHeaders rb := hs.symm.trans h2
       rw [h3, stripCondHeaders_poolName])

/-- `doRequest` touches no builder field beyond the conditional header
cleanup and `poolName`. -/
theorem doRequest_rb_eraseP (rb : RequestBuilder) (env : Env) (fuel : Nat)
    (verb url0 : String) (body : ReqBody) (cache : Cache) :
    eraseP (doRequest rb env fuel verb url0 body cache).rb =
      eraseP (stripCondHeaders rb) := by
  unfold doRequest
  split
  · rename_i hcond
    split
    · split
      · have h1 : rb.enableCache = true := by
          simp only [Bool.and_eq_true] at hcond
          exact hcond.1
        rw [stripCondHeaders_of_enabled rb h1]
      · exact doRequestNet_rb_eraseP _ _ _ _ _ _ _ _ _
    · exact doRequestNet_rb_eraseP _ _ _ _ _ _ _ _ _
  · exact doRequestNet_rb_eraseP _ _ _ _ _ _ _ _ _

/-- `doRequest` leaves a nonempty `poolName` unchanged. -/
theorem doRequest_rb_poolName (rb : RequestBuilder) (env : Env) (fuel : Nat)
    (verb url0 : String) (body : ReqBody) (cache : Cache)
    (hp : ¬ rb.poolName = "") :
    (doRequest rb env fuel verb url0 body cache).rb.poolName = rb.poolName := by
  unfold doRequest
  split
  · split
    · split
      · rfl
      · exact doRequestNet_rb_poolName _ _ _ _ _ _ _ _ _ hp
    · exact doRequestNet_rb_poolName _ _ _ _ _ _ _ _ _ hp
  · exact doRequestNet_rb_poolName _ _ _ _ _ _ _ _ _ hp

/-- `DoRequest` changes at most the headers map and `poolName`. -/
theorem DoRequest_rb_eraseHP (rb : RequestBuilder) (env : Env) (fuel : Nat)
    (verb url0 : String) (body : ReqBody) (cache : Cache) :
    eraseHP (DoRequest rb env fuel verb url0 body cache).rb = eraseHP rb := by
  have h2 := (eraseHP_of_eraseP _ _
    (doRequest_rb_eraseP rb env fuel verb url0 body cache)).trans (eraseHP_strip rb)
  unfold DoRequest
  split
  · split
    · rfl
    · split <;> (try split) <;> exact h2
  · exact h2

/-- `DoRequest` leaves the headers map unchanged when caching is
enabled. -/
theorem DoRequest_rb_headers (rb : RequestBuilder) (env : Env) (fuel : Nat)
    (verb url0 : String) (body : ReqBody) (cache : Cache)
    (hec : rb.enableCache = true) :
    (DoRequest rb env fuel verb url0 body cache).rb.headers = rb.headers := by
  have h := doRequest_rb_eraseP rb env fuel verb url0 body cache
  rw [stripCondHeaders_of_enabled rb hec] at h
  have hh0 := congrArg RequestBuilder.headers h
  have hh : (doRequest rb env fuel verb url0 body cache).rb.headers = rb.headers := hh0
  unfold DoRequest
  split
  · split
    · rfl
    · split <;> (try split) <;> exact hh
  · exact hh

/-- `DoRequest` leaves a nonempty `poolName` unchanged. -/
theorem DoRequest_rb_poolName (rb : RequestBuilder) (env : Env) (fuel : Nat)
    (verb url0 : String) (body : ReqBody) (cache : Cache)
    (hp : ¬ rb.poolName = "") :
    (DoRequest rb env fuel verb url0 body cache).rb.poolName = rb.poolName := by
  have hh := doRequest_rb_poolName rb env fuel verb url0 body cache hp
  unfold DoRequest
  split
  · split
    · rfl
    · split <;> (try split) <;> exact hh
  · exact hh

/-- The post-processing stage never emits a breaker completion. -/
theorem finishResponse_no_breaker (rb : RequestBuilder) (env : Env)
    (verb cacheURL : String) (cacheResp : Option Response) (h : HttpResp)
    (cache : Cache) (s : Bool) :
    Ev.breakerDone s ∉ (finishResponse rb env verb cacheURL cacheResp h cache).2.2 := by
  unfold finishResponse
  split
  · simp
  · split <;> simp

/-- The network path emits no breaker completion beyond those already in
the prefix trace. -/
theorem doRequestNet_no_breaker (rb : RequestBuilder) (env : Env) (fuel : Nat)
    (verb reqURL : String) (cacheResp : Option Response) (body : ReqBody)
    (cache : Cache) (evs0 : List Ev) (s : Bool)
    (h0 : Ev.breakerDone s ∉ evs0) :
    Ev.breakerDone s ∉ (doRequestNet rb env fuel verb reqURL cacheResp body cache evs0).evs := by
  unfold doRequestNet
  split
  · exact h0
  · split <;>
      (rename_i rb1 evs1 heq
       have hl := retryLoop_no_breaker env fuel 0 (stripCondHeaders rb) s
       rw [heq] at hl
       intro hmem
       first
         | (rcases List.mem_append.mp hmem with h12 | h3
            · rcases List.mem_append.mp h12 with h1 | h2
              · exact h0 h1
              · exact hl h2
            · exact finishResponse_no_breaker _ _ _ _ _ _ _ _ h3)
         | (rcases List.mem_append.mp hmem with h1 | h2
            · exact h0 h1
            · exact hl h2))

/-- `doRequest` never emits a breaker completion. -/
theorem doRequest_no_breaker (rb : RequestBuilder) (env : Env) (fuel : Nat)
    (verb url0 : String) (body : ReqBody) (cache : Cache) (s : Bool) :
    Ev.breakerDone s ∉ (doRequest rb env fuel verb url0 body cache).evs := by
  unfold doRequest
  split
  · split
    · split
      · simp
      · exact doRequestNet_no_breaker _ _ _ _ _ _ _ _ _ _ (by simp)
    · exact doRequestNet_no_breaker _ _ _ _ _ _ _ _ _ _ (by simp)
  · exact doRequestNet_no_breaker _ _ _ _ _ _ _ _ _ _ (by simp)

/-! ## C1 -/

/-- C1: if a circuit breaker is configured and its `Allow()` denies the
call, `DoRequest` returns a synthetic failure `Response` with status 500
carrying the denial error, and performs no network call, no cache read or
write, and no retry-loop iteration (the trace is empty and the cache and
builder are untouched). -/
theorem C1_breaker_denial (rb : RequestBuilder) (env : Env) (fuel : Nat)
    (verb url : String) (body : ReqBody) (cache : Cache) (e : Err)
    (hcb : rb.hasCircuitBreaker = true) (hdeny : env.breakerAllow = some e) :
    DoRequest rb env fuel verb url body cache =
      { out := some (some { err := some e,
                            resp := some { statusCode := 500, headers := [], body := [] } }),
        panicked := false, rb := rb, cache := cache, evs := [] } := by
  simp [DoRequest, hcb, hdeny]

/-- C1 witness at a concrete denied call. -/
theorem C1_breaker_denial_witness :
    DoRequest rbDenied envDenied 5 "GET" "/r" ReqBody.empty [] =
      { out := some (some { err := some "circuit breaker open",
                            resp := some { statusCode := 500, headers := [], body := [] } }),
        panicked := false, rb := rbDenied, cache := [], evs := [] } :=
  C1_breaker_denial rbDenied envDenied 5 "GET" "/r" ReqBody.empty []
    "circuit breaker open" rfl rfl

/-! ## C2 -/

/-- C2 counterexample: on a response whose `Cache-Control` contains
`max-age=0` alongside a valid future `Expires` header, `Cache-Control`
yields no TTL (`setTTL` reports nothing found) and yet the `Expires`
header is not used either — no TTL is set at all, where the claim
requires the `Expires`-derived TTL to be used instead. -/
theorem C2_counterexample :
    maxAgeScan ((respMaxAge0.headerGet "Cache-Control").toList) = some ['0'] ∧
    envExpires.parseDate (respMaxAge0.headerGet "Expires") = some 1200 ∧
    envExpires.now < 1200 ∧
    setTTL envExpires respMaxAge0 = (respMaxAge0, false) ∧
    (setTTL envExpires respMaxAge0).1.ttl = none :=
  ⟨rfl, rfl, by decide, rfl, rfl⟩

/-- C2 (amended): a `Cache-Control` `max-age`/`s-maxage` directive whose
digits parse to a positive value `n` sets the TTL to `now + n` seconds,
taking precedence over any `Expires` header; the `Expires` header (when
it parses to a future instant) is used only when `Cache-Control` contains
no `max-age`/`s-maxage` directive at all — a directive with value 0 (or
an unparseable one) sets no TTL and `Expires` is not consulted. -/
theorem C2_ttl_amended (env : Env) (resp : Response) :
    (∀ ds n, maxAgeScan ((resp.headerGet "Cache-Control").toList) = some ds →
        atoi ds = some n → 0 < n →
        (setTTL env resp).1.ttl = some (env.now + n) ∧ (setTTL env resp).2 = true) ∧
    (maxAgeScan ((resp.headerGet "Cache-Control").toList) = none →
      ∀ t, env.parseDate (resp.headerGet "Expires") = some t → env.now < t →
        (setTTL env resp).1.ttl = some t ∧ (setTTL env resp).2 = true) := by
  constructor
  · intro ds n hscan hatoi hpos
    simp only [String.toList] at hscan
    simp [setTTL, String.toList, hscan, hatoi, hpos]
  · intro hscan t hparse ht
    simp only [String.toList] at hscan
    simp [setTTL, String.toList, hscan, hparse, ht]

/-- C2 witness: `max-age=100` at time 1000 yields TTL 1100 (the `Expires`
value 1200 is ignored), and an `Expires`-only response yields TTL 1200. -/
theorem C2_ttl_amended_witness :
    (setTTL envExpires respMaxAge100).1.ttl = some 1100 ∧
    (setTTL envExpires respExpiresOnly).1.ttl = some 1200 := by
  constructor
  · exact ((C2_ttl_amended envExpires respMaxAge100).1 ['1', '0', '0'] 100
      rfl rfl (by decide)).1
  · exact ((C2_ttl_amended envExpires respExpiresOnly).2 rfl 1200 rfl (by decide)).1

/-! ## C3 -/

/-- C3: after a successful non-304 network response to a read-verb
request with caching enabled, the response is stored under the canonical
URL via `setNX` if and only if at least one of TTL, Last-Modified or
ETag was extracted; and the (spec-modelled) `setNX` inserts when the URL
is absent, leaves a still-fresh entry alone (insert-if-absent), and
replaces a stale entry outright. -/
theorem C3_cache_insert (rb : RequestBuilder) (env : Env) (verb cacheURL : String)
    (cacheResp : Option Response) (h : HttpResp) (cache : Cache)
    (hcache : rb.enableCache = true) (hverb : matchVerbs verb readVerbs = true)
    (h304 : (h.statusCode == 304) = false) :
    (∀ r4 t l e, extractCacheMeta env (readBody rb env h) = (r4, t, l, e) →
        (t || l || e) = true →
        (finishResponse rb env verb cacheURL cacheResp h cache).1 =
          some (revalidateMark (r4, t, l, e)) ∧
        (finishResponse rb env verb cacheURL cacheResp h cache).2.1 =
          cacheSetNX env.now cacheURL (revalidateMark (r4, t, l, e)) cache) ∧
    (∀ r4 t l e, extractCacheMeta env (readBody rb env h) = (r4, t, l, e) →
        (t || l || e) = false →
        (finishResponse rb env verb cacheURL cacheResp h cache).2.1 = cache) ∧
    (∀ (now : Int) (url : String) (r : Response) (c : Cache),
        c.find? (fun q => q.1 == url) = none →
        cacheSetNX now url r c = (url, r) :: c) ∧
    (∀ (now : Int) (url : String) (r : Response) (c : Cache) p,
        c.find? (fun q => q.1 == url) = some p → cacheFreshAt now p.2 = true →
        cacheSetNX now url r c = c) ∧
    (∀ (now : Int) (url : String) (r : Response) (c : Cache) p,
        c.find? (fun q => q.1 == url) = some p → cacheFreshAt now p.2 = false →
        cacheSetNX now url r c = (url, r) :: c.filter (fun q => q.1 != url)) := by
  refine ⟨?_, ?_, ?_, ?_, ?_⟩
  · intro r4 t l e hmeta hflag
    constructor <;> simp [finishResponse, hmeta, hcache, hverb, h304, hflag]
  · intro r4 t l e hmeta hflag
    simp [finishResponse, hmeta, hcache, hverb, h304, hflag]
  · intro now url r c hfind
    simp [cacheSetNX, hfind]
  · intro now url r c p hfind hfresh
    simp [cacheSetNX, hfind, hfresh]
  · intro now url r c p hfind hfresh
    simp [cacheSetNX, hfind, hfresh]

/-- C3 witness: a cacheable 200 response (max-age and ETag present) on a
GET with caching enabled is inserted via `setNX`. -/
theorem C3_cache_insert_witness :
    (finishResponse rbCache envExpires "GET" "u" none hRespCacheable []).1 =
      some (revalidateMark (rCacheableMeta, true, false, true)) ∧
    (finishResponse rbCache envExpires "GET" "u" none hRespCacheable []).2.1 =
      cacheSetNX envExpires.now "u" (revalidateMark (rCacheableMeta, true, false, true)) [] :=
  (C3_cache_insert rbCache envExpires "GET" "u" none hRespCacheable [] rfl rfl rfl).1
    rCacheableMeta true false true rfl rfl

/-! ## C4 -/

/-- C4: when caching is enabled on a read-verb request whose cache entry
required revalidation and the network attempt comes back `304 Not
Modified`, `doRequest` returns the previously cached `Response` (marked
as a cache hit) with its cached body unchanged, not a response built from
the 304's empty body. -/
theorem C4_not_modified (rb : RequestBuilder) (env : Env) (fuel : Nat)
    (verb url0 : String) (body : ReqBody) (cache : Cache) (e : Response)
    (rb1 : RequestBuilder) (evs1 : List Ev) (h : HttpResp) (bs : Bytes)
    (hcache : rb.enableCache = true)
    (hverb : matchVerbs verb readVerbs = true)
    (hget : cacheGet env.now (rb.baseURL ++ url0) cache = some e)
    (hreval : e.revalidate = true)
    (hm : marshalReqBody rb env body = Except.ok bs)
    (hloop : retryLoop env fuel 0 rb = (LoopOut.finished (NetRes.ok h), rb1, evs1))
    (h304 : (h.statusCode == 304) = true) :
    (doRequest rb env fuel verb url0 body cache).out =
      some (some { e with cacheHit := true }) ∧
    ({ e with cacheHit := true } : Response).byteBody = e.byteBody := by
  have h1 : (retryLoop env fuel 0 rb).2.1.enableCache = rb.enableCache := by
    have h0 := congrArg RequestBuilder.enableCache (retryLoop_rb_shape env fuel 0 rb)
    exact h0
  rw [hloop] at h1
  have hrb1 : rb1.enableCache = true := by
    rw [← hcache]
    exact h1
  have hstrip : stripCondHeaders rb = rb := stripCondHeaders_of_enabled rb hcache
  constructor
  · simp [doRequest, doRequestNet, finishResponse, hcache, hverb, hget, hreval,
      hstrip, hm, hloop, h304, hrb1]
  · rfl

/-- C4 witness: a GET over a revalidating cached entry answered by a 304
returns the cached body `[1, 2, 3]` unchanged. -/
theorem C4_not_modified_witness :
    (doRequest rbCache env304 1 "GET" "u" ReqBody.empty cacheWithEntry).out =
      some (some { cachedEntry with cacheHit := true }) ∧
    ({ cachedEntry with cacheHit := true } : Response).byteBody = cachedEntry.byteBody :=
  C4_not_modified rbCache env304 1 "GET" "u" ReqBody.empty cacheWithEntry cachedEntry
    _ _ resp304 [] rfl rfl rfl rfl rfl rfl rfl

/-! ## C5 -/

/-- C5: the claim says `DoRequest` always returns a non-nil `Response`
(nil only before a `Response` object exists). The code violates this: on
a caching-enabled builder, a request whose verb never consulted the cache
(here a POST) that is answered `304 Not Modified` makes `doRequest`
return the nil `cacheResp` pointer, and the breaker-guarded `DoRequest`
then dereferences that nil `Response` computing the success flag. -/
theorem C5_nil_response_bug :
    (doRequest rbCache env304 1 "POST" "/u" ReqBody.empty []).out = some none ∧
    (DoRequest rbCacheCB env304 1 "POST" "/u" ReqBody.empty []).panicked = true :=
  ⟨rfl, rfl⟩

/-! ## C6 -/

/-- C6 counterexample: a limiter-rejected retry under a configuration
with API-call metrics disabled ends the loop with the failing result but
records no retry-break metric, where the claim requires the metric to be
recorded whenever the limiter rejects. -/
theorem C6_counterexample :
    rbRetryNoMetrics.hasRetryStrategy = true ∧
    rbRetryNoMetrics.hasCircuitBreaker = false ∧
    (envRetryReject.shouldRetry 0 (envRetryReject.net 0)).1 = true ∧
    envRetryReject.limiterAllow 0 = false ∧
    (retryLoop envRetryReject 1 0 rbRetryNoMetrics).1 =
      LoopOut.finished (NetRes.err "boom") ∧
    Ev.retryBreak ∉ (retryLoop envRetryReject 1 0 rbRetryNoMetrics).2.2 :=
  ⟨rfl, rfl, rfl, rfl, rfl, by decide⟩

/-- C6 (amended): when the retry strategy requests a retry, a configured
circuit breaker makes the retry proceed directly; without a breaker the
retry is gated through the bounded retry limiter, and when the limiter
rejects, the loop ends with the current (failing) result and the
retry-break metric is recorded unless API-call metrics are disabled. -/
theorem C6_retry_paths (env : Env) (rb : RequestBuilder) (fuel retries : Nat)
    (hnew : env.newRequestErr = none)
    (hrs : rb.hasRetryStrategy = true)
    (hretry : (env.shouldRetry retries (env.net retries)).1 = true) :
    (rb.hasCircuitBreaker = true →
      retryLoop env (fuel + 1) retries rb =
        ((retryLoop env fuel (retries + 1) (poolNameStep env rb)).1,
         (retryLoop env fuel (retries + 1) (poolNameStep env rb)).2.1,
         attemptEvs env (poolNameStep env rb) retries ++ retryEvs env retries ++
           (retryLoop env fuel (retries + 1) (poolNameStep env rb)).2.2)) ∧
    (rb.hasCircuitBreaker = false → env.limiterAllow retries = true →
      retryLoop env (fuel + 1) retries rb =
        ((retryLoop env fuel (retries + 1) (poolNameStep env rb)).1,
         (retryLoop env fuel (retries + 1) (poolNameStep env rb)).2.1,
         attemptEvs env (poolNameStep env rb) retries ++ retryEvs env retries ++
           (retryLoop env fuel (retries + 1) (poolNameStep env rb)).2.2)) ∧
    (rb.hasCircuitBreaker = false → env.limiterAllow retries = false →
      retryLoop env (fuel + 1) retries rb =
        (LoopOut.finished (env.net retries), poolNameStep env rb,
         attemptEvs env (poolNameStep env rb) retries ++
           (if rb.disableApiCallMetrics then [] else [Ev.retryBreak]))) := by
  refine ⟨?_, ?_, ?_⟩
  · intro hcb
    simp [retryLoop, hnew, hretry, hrs, hcb,
      poolNameStep_hasRetryStrategy, poolNameStep_hasCircuitBreaker]
  · intro hcb hla
    simp [retryLoop, hnew, hretry, hrs, hcb, hla,
      poolNameStep_hasRetryStrategy, poolNameStep_hasCircuitBreaker]
  · intro hcb hla
    simp [retryLoop, hnew, hretry, hrs, hcb, hla,
      poolNameStep_hasRetryStrategy, poolNameStep_hasCircuitBreaker,
      poolNameStep_disableApiCallMetrics]

/-- C6 witness: a rejected retry on a metrics-enabled builder ends the
loop with the failing result and the retry-break metric. -/
theorem C6_retry_paths_witness :
    retryLoop envRetryReject 1 0 rbRetry =
      (LoopOut.finished (envRetryReject.net 0), poolNameStep envRetryReject rbRetry,
       attemptEvs envRetryReject (poolNameStep envRetryReject rbRetry) 0 ++
         (if rbRetry.disableApiCallMetrics then [] else [Ev.retryBreak])) :=
  (C6_retry_paths envRetryReject rbRetry 0 0 rfl rfl rfl).2.2 rfl rfl

/-! ## C7 -/

/-- C7 counterexample: with an empty pool name and caching disabled, a
call mutates the builder's configuration — the pool name is lazily set
from the call site and the conditional headers are deleted from the
shared headers map — where the claim requires every field to be unchanged. -/
theorem C7_counterexample :
    ¬ (DoRequest rbCondHeader envOk200 1 "GET" "/u" ReqBody.empty []).rb.poolName =
        rbCondHeader.poolName ∧
    ¬ (DoRequest rbCondHeader envOk200 1 "GET" "/u" ReqBody.empty []).rb.headers =
        rbCondHeader.headers :=
  ⟨by decide, by decide⟩

/-- C7 (amended): a call leaves every configuration field of the builder
unchanged except for two deliberate mutations: when caching is disabled
the conditional headers are deleted from the headers map (the map is
preserved whenever caching is enabled), and an empty pool name is lazily
assigned from the call site (a nonempty pool name is preserved). -/
theorem C7_config_immutable (rb : RequestBuilder) (env : Env) (fuel : Nat)
    (verb url0 : String) (body : ReqBody) (cache : Cache) :
    (rbAfter rb env fuel verb url0 body cache).baseURL = rb.baseURL ∧
    (rbAfter rb env fuel verb url0 body cache).contentType = rb.contentType ∧
    (rbAfter rb env fuel verb url0 body cache).timeout = rb.timeout ∧
    (rbAfter rb env fuel verb url0 body cache).connectTimeout = rb.connectTimeout ∧
    (rbAfter rb env fuel verb url0 body cache).disableTimeout = rb.disableTimeout ∧
    (rbAfter rb env fuel verb url0 body cache).enableCache = rb.enableCache ∧
    (rbAfter rb env fuel verb url0 body cache).followRedirect = rb.followRedirect ∧
    (rbAfter rb env fuel verb url0 body cache).uncompressResponse = rb.uncompressResponse ∧
    (rbAfter rb env fuel verb url0 body cache).userAgent = rb.userAgent ∧
    (rbAfter rb env fuel verb url0 body cache).basicAuth = rb.basicAuth ∧
    (rbAfter rb env fuel verb url0 body cache).hasRetryStrategy = rb.hasRetryStrategy ∧
    (rbAfter rb env fuel verb url0 body cache).hasCircuitBreaker = rb.hasCircuitBreaker ∧
    (rbAfter rb env fuel verb url0 body cache).disableApiCallMetrics = rb.disableApiCallMetrics ∧
    (rbAfter rb env fuel verb url0 body cache).targetId = rb.targetId ∧
    (rb.enableCache = true →
      (rbAfter rb env fuel verb url0 body cache).headers = rb.headers) ∧
    (¬ rb.poolName = "" →
      (rbAfter rb env fuel verb url0 body cache).poolName = rb.poolName) := by
  have hE := DoRequest_rb_eraseHP rb env fuel verb url0 body cache
  have h01 := congrArg RequestBuilder.baseURL hE
  have h02 := congrArg RequestBuilder.contentType hE
  have h03 := congrArg RequestBuilder.timeout hE
  have h04 := congrArg RequestBuilder.connectTimeout hE
  have h05 := congrArg RequestBuilder.disableTimeout hE
  have h06 := congrArg RequestBuilder.enableCache hE
  have h07 := congrArg RequestBuilder.followRedirect hE
  have h08 := congrArg RequestBuilder.uncompressResponse hE
  have h09 := congrArg RequestBuilder.userAgent hE
  have h10 := congrArg RequestBuilder.basicAuth hE
  have h11 := congrArg RequestBuilder.hasRetryStrategy hE
  have h12 := congrArg RequestBuilder.hasCircuitBreaker hE
  have h13 := congrArg RequestBuilder.disableApiCallMetrics hE
  have h14 := congrArg RequestBuilder.targetId hE
  exact ⟨h01, h02, h03, h04, h05, h06, h07, h08, h09, h10, h11, h12, h13, h14,
    fun hec => DoRequest_rb_headers rb env fuel verb url0 body cache hec,
    fun hp => DoRequest_rb_poolName rb env fuel verb url0 body cache hp⟩

/-- C7 witness: with caching enabled and a nonempty pool name, the
headers map and pool name survive a call unchanged. -/
theorem C7_config_immutable_witness :
    (rbAfter rbNamedPool envOk200 1 "GET" "/u" ReqBody.empty []).headers =
      rbNamedPool.headers ∧
    (rbAfter rbNamedPool envOk200 1 "GET" "/u" ReqBody.empty []).poolName =
      rbNamedPool.poolName := by
  obtain ⟨-, -, -, -, -, -, -, -, -, -, -, -, -, -, hH, hP⟩ :=
    C7_config_immutable rbNamedPool envOk200 1 "GET" "/u" ReqBody.empty []
  exact ⟨hH rfl, hP (by decide)⟩

/-! ## C8 -/

/-- C8: when a configured circuit breaker admits the call, exactly one
completion callback is recorded, after the request's own trace, and its
success flag is true iff the resulting response's error field is nil and
the HTTP status class is not 5xx. -/
theorem C8_breaker_completion (rb : RequestBuilder) (env : Env) (fuel : Nat)
    (verb url0 : String) (body : ReqBody) (cache : Cache) (r : Response)
    (hcb : rb.hasCircuitBreaker = true)
    (hallow : env.breakerAllow = none)
    (hout : (doRequest rb env fuel verb url0 body cache).out = some (some r))
    (hresp : r.err = none → r.resp.isSome = true) :
    (DoRequest rb env fuel verb url0 body cache).evs =
      (doRequest rb env fuel verb url0 body cache).evs ++
        [Ev.breakerDone (r.err.isNone && !(r.statusCodeD / 100 == 5))] ∧
    ((DoRequest rb env fuel verb url0 body cache).evs).countP isBreakerDone = 1 ∧
    ((r.err.isNone && !(r.statusCodeD / 100 == 5)) = true ↔
      (r.err = none ∧ ¬ r.statusCodeD / 100 = 5)) := by
  have hcbs : cbSuccess r = some (r.err.isNone && !(r.statusCodeD / 100 == 5)) := by
    cases hre : r.err with
    | some e => simp [cbSuccess, hre]
    | none =>
      cases hrp : r.resp with
      | some hh => simp [cbSuccess, hre, hrp, Response.statusCodeD]
      | none =>
        have hx := hresp hre
        rw [hrp] at hx
        simp at hx
  refine ⟨?_, ?_, ?_⟩
  · simp [DoRequest, hcb, hallow, hout, hcbs]
  · have hz := countP_eq_zero_of_no_breaker _
      (fun s => doRequest_no_breaker rb env fuel verb url0 body cache s)
    simp [DoRequest, hcb, hallow, hout, hcbs, List.countP_append, List.countP_cons,
      hz, isBreakerDone]
  · cases hre : r.err with
    | some e => simp [hre]
    | none => simp [hre]

/-- C8 witness: an admitted call answered by a plain 200 records exactly
one breaker completion. -/
theorem C8_breaker_completion_witness :
    ((DoRequest rbCB envOk200 1 "GET" "/u" ReqBody.empty []).evs).countP isBreakerDone = 1 := by
  obtain ⟨-, h2, -⟩ := C8_breaker_completion rbCB envOk200 1 "GET" "/u" ReqBody.empty []
    rOk200after rfl rfl rfl (fun _ => rfl)
  exact h2

/-! ## C9 -/

/-- C9: a `Concurrent` verb method does not execute the request at call
time — it appends the closure to the batch (builder untouched) and hands
back a future whose `Response()` is nil until the closure has run; once
the closure runs it stores, exactly once, precisely the `*Response`
produced by the underlying `RequestBuilder.DoRequest`, which `Response()`
then yields. -/
theorem C9_concurrent_future (c : Concurrent) (verb url : String) (body : ReqBody) :
    (c.doRequestC verb url body).1.futures = c.futures ++ [⟨verb, url, body⟩] ∧
    (c.doRequestC verb url body).1.reqBuilder = c.reqBuilder ∧
    FutureState.response newFutureState = none ∧
    (∀ (env : Env) (fuel : Nat) (cache : Cache),
      runPending c.reqBuilder env fuel cache (c.doRequestC verb url body).2 =
        (DoRequest c.reqBuilder env fuel verb url body cache).out ∧
      (∀ v, (DoRequest c.reqBuilder env fuel verb url body cache).out = some v →
        FutureState.response (runPending c.reqBuilder env fuel cache
          (c.doRequestC verb url body).2) = v)) := by
  refine ⟨rfl, rfl, rfl, ?_⟩
  intro env fuel cache
  constructor
  · unfold runPending
    cases hout : (DoRequest c.reqBuilder env fuel verb url body cache).out <;>
      simp [Concurrent.doRequestC, hout]
  · intro v hv
    unfold runPending
    simp [Concurrent.doRequestC, hv, FutureState.response]

/-- C9 witness: a queued GET on a breaker-denied builder; running the
stored closure makes the future yield exactly the `DoRequest` result. -/
theorem C9_concurrent_future_witness :
    (cDemo.doRequestC "GET" "/u" ReqBody.empty).1.futures =
      [⟨"GET", "/u", ReqBody.empty⟩] ∧
    FutureState.response (runPending cDemo.reqBuilder envDenied 1 []
      (cDemo.doRequestC "GET" "/u" ReqBody.empty).2) = some denyResp := by
  obtain ⟨h1, -, -, h4⟩ := C9_concurrent_future cDemo "GET" "/u" ReqBody.empty
  constructor
  · rw [h1]
    rfl
  · exact (h4 envDenied 1 []).2 (some denyResp) rfl

/-! ## C10 -/

/-- C10: when the breaker admits a call that then fails locally before
any network attempt (BYTES content type, non-byte-slice body), the
completion callback still runs with success=false: the whole trace is a
single failed completion — no network call, no cache write — and the
marshalling error is carried on the response. -/
theorem C10_local_failure_counts (rb : RequestBuilder) (env : Env) (fuel : Nat)
    (url0 : String) (cache : Cache) (b : ReqBody)
    (hcb : rb.hasCircuitBreaker = true)
    (hallow : env.breakerAllow = none)
    (hct : rb.contentType = ContentType.bytes)
    (hnb : ∀ bs, ¬ b = ReqBody.byteSlice bs)
    (hne : ¬ b = ReqBody.empty) :
    (DoRequest rb env fuel "POST" url0 b cache).out =
      some (some { err := some ("bytes: body is " ++ describeBody b ++ " not a byte slice") }) ∧
    (DoRequest rb env fuel "POST" url0 b cache).evs = [Ev.breakerDone false] ∧
    (DoRequest rb env fuel "POST" url0 b cache).cache = cache := by
  have hm : marshalReqBody (stripCondHeaders rb) env b =
      Except.error ("bytes: body is " ++ describeBody b ++ " not a byte slice") := by
    cases b with
    | empty => exact absurd rfl hne
    | byteSlice bs => exact absurd rfl (hnb bs)
    | jsonValue s => simp [marshalReqBody, stripCondHeaders_contentType, hct]
    | xmlValue s => simp [marshalReqBody, stripCondHeaders_contentType, hct]
    | other d => simp [marshalReqBody, stripCondHeaders_contentType, hct]
  have hv : (rb.enableCache && matchVerbs "POST" readVerbs) = false := by
    simp [matchVerbs, readVerbs]
  have hdo : doRequest rb env fuel "POST" url0 b cache =
      { out := some (some { err := some ("bytes: body is " ++ describeBody b ++ " not a byte slice") }),
        rb := stripCondHeaders rb, cache := cache, evs := [] } := by
    simp [doRequest, doRequestNet, hv, hm]
  refine ⟨?_, ?_, ?_⟩ <;> simp [DoRequest, hcb, hallow, hdo, cbSuccess]

/-- C10 witness: a breaker-guarded BYTES builder given a non-byte-slice
body records exactly one failed completion with no network call. -/
theorem C10_local_failure_counts_witness :
    (DoRequest rbBytesCB envOk200 1 "POST" "/u" bodyNotBytes []).out =
      some (some { err := some ("bytes: body is " ++ describeBody bodyNotBytes ++
        " not a byte slice") }) ∧
    (DoRequest rbBytesCB envOk200 1 "POST" "/u" bodyNotBytes []).evs =
      [Ev.breakerDone false] ∧
    (DoRequest rbBytesCB envOk200 1 "POST" "/u" bodyNotBytes []).cache = [] :=
  C10_local_failure_counts rbBytesCB envOk200 1 "/u" [] bodyNotBytes rfl rfl rfl
    (fun _ h => ReqBody.noConfusion h) (fun h => ReqBody.noConfusion h)

end Rest
